import Mathlib

/-!
Verification development for the benteng-sdk repository: a shallow embedding
of the envelope operations (sdk-core/src/envelope), the dual-control KMS
(sdk-core/src/crypto/kms.rs), the transparency log (transparency/src/lib.rs),
the policy bundle distributor (sdk-core/src/policy_bundle.rs) and the gateway
verify handler (edge-api/src/main.rs), together with theorems settling the
frozen claims about them.

Modelling conventions:
* Byte strings (`Vec<u8>`, `&[u8]`, `[u8; N]`) are `List Nat`.
* Rust `&str`/`String` values stay `String`; `.as_bytes()` is `strBytes`.
* Time (`SystemTime`, epoch milliseconds) is a `Nat` of milliseconds; a
  `Duration::from_secs(s)` becomes `s * 1000` milliseconds.  `Nat`
  subtraction is truncated at zero, which coincides with the source's
  `duration_since(..).unwrap_or(Duration::ZERO)` pattern.
* `HashMap` becomes an association list (`alookup` / `aupsert`); the
  arbitrary iteration order of `keys().next()` is modelled by the head of
  the list.
* Cryptographic primitives (SHA-256, HKDF-SHA256, ML-KEM-768, ML-DSA-65,
  AES-256-GCM) and the serializers (cbor4ii, ciborium, serde_json) are
  parameters collected in the `Crypto` structure: the theorems quantify over
  them and assume only the contracts the primitives document (e.g. AEAD
  round-trip).  Fallible primitives (`from_bytes` failures) return `Option`.
* Rust functions returning `Result<T, BentengError>` become
  `Except BentengError T`; a Rust panic (out-of-bounds slice) is the `none`
  of an outer `Option`.
-/

namespace Benteng

/-- Byte strings are lists of naturals (each below 256 in the real program). -/
abbrev Bytes := List Nat

/-- UTF-8 bytes of a string, as used by `.as_bytes()` and byte-string
literals such as `b"benteng/hsm-a/k1/v1"` (all uses are ASCII, so one char
is one byte). -/
def strBytes (s : String) : Bytes :=
  s.toList.map Char.toNat

/-- Lower-case hex digit, as produced by the `hex` crate. -/
def hexChar (n : Nat) : Char :=
  if n < 10 then Char.ofNat (48 + n) else Char.ofNat (87 + n)

/-- Models `hex::encode`: two lower-case hex digits per byte. -/
def hexEncode (bs : Bytes) : String :=
  String.mk (bs.foldr (fun b acc => hexChar (b / 16 % 16) :: hexChar (b % 16) :: acc) [])

/-- Association-list lookup; models `HashMap::get`. -/
def alookup {α β : Type} [DecidableEq α] (k : α) : List (α × β) → Option β
  | [] => none
  | (k', v) :: rest => if k' = k then some v else alookup k rest

/-- Association-list insert-or-replace; models `HashMap::insert`. -/
def aupsert {α β : Type} [DecidableEq α] (k : α) (v : β) : List (α × β) → List (α × β)
  | [] => [(k, v)]
  | (k', v') :: rest => if k' = k then (k, v) :: rest else (k', v') :: aupsert k v rest

/-- Error taxonomy of sdk-core/src/error.rs. -/
inductive BentengError where
  | policyMismatch
  | invalidSignature
  | aeadFailure
  | entropyUnavailable
  | kmsError (msg : String)
  | internalError
deriving DecidableEq

/-- Algorithm set of an envelope (sdk-core/src/envelope/mod.rs). -/
structure AlgorithmSet where
  kem : String
  sig : String
  aead : String
  hybrid : Bool
deriving DecidableEq

/-- The `Default` impl for `AlgorithmSet`. -/
def AlgorithmSet.defaultSet : AlgorithmSet :=
  { kem := "ML-KEM-768", sig := "ML-DSA-65", aead := "AES-256-GCM", hybrid := true }

/-- AAD extensions field of an envelope (sdk-core/src/envelope/mod.rs). -/
structure AadExtensions where
  device_attest_hash : Option Bytes
  required_algs : String
deriving DecidableEq

/-- The 12-field envelope (sdk-core/src/envelope/mod.rs). -/
structure Envelope where
  ver : Nat
  algs : AlgorithmSet
  tenant_id : Bytes
  policy_id : Bytes
  path : String
  ts_epoch_ms : Nat
  nonce : Bytes
  aad_ext : AadExtensions
  kem_pub_ephem : Option Bytes
  kem_ct : Bytes
  sig : Bytes
  ct : Bytes
deriving DecidableEq

/-- `Envelope::new` (sdk-core/src/envelope/mod.rs).  The source initialises
`ts_epoch_ms` from the wall clock; the value is dead in every use in the
claims' scope (`encrypt_and_sign` overwrites it immediately), so it is
modelled as 0. -/
def Envelope.new (tenant_id policy_id : Bytes) (path : String) : Envelope :=
  { ver := 1
    algs := AlgorithmSet.defaultSet
    tenant_id := tenant_id
    policy_id := policy_id
    path := path
    ts_epoch_ms := 0
    nonce := List.replicate 12 0
    aad_ext := { device_attest_hash := none, required_algs := "kyber+dilithium" }
    kem_pub_ephem := none
    kem_ct := []
    sig := []
    ct := [] }

/-- AAD binding structure (sdk-core/src/crypto/aad.rs). -/
structure Aad where
  ver : Nat
  tenant_id : Bytes
  policy_id : Bytes
  path : String
  ts_epoch_ms : Nat
  required_algs : String
  hybrid : Bool
  device_attest_hash : Option Bytes
deriving DecidableEq

/-- `Aad::build` (sdk-core/src/crypto/aad.rs). -/
def Aad.build (ver : Nat) (tenant_id policy_id : Bytes) (path : String)
    (ts_epoch_ms : Nat) (required_algs : String) (hybrid : Bool)
    (device_attest_hash : Option Bytes) : Aad :=
  { ver := ver, tenant_id := tenant_id, policy_id := policy_id, path := path
    ts_epoch_ms := ts_epoch_ms, required_algs := required_algs, hybrid := hybrid
    device_attest_hash := device_attest_hash }

/-- Policy record (sdk-core/src/policy.rs). -/
structure Policy where
  tenant_id : String
  policy_id : String
  path : String
  required_algs : String
  max_age_ms : Nat
  max_body_bytes : Nat
  require_device_attest : Bool
  hybrid_allowed : Bool
  replay_ttl_ms : Nat
  version : Nat
deriving DecidableEq

/-- Transparency-log entry (transparency/src/lib.rs). -/
structure LogEntry where
  v : Nat
  ten : Bytes
  typ : String
  ts : Nat
  hdr_h : Bytes
  sig_h : Bytes
  kid : String
  pol : Bytes
  rc : Nat
deriving DecidableEq

/-- Signed policy bundle (sdk-core/src/policy_bundle.rs). -/
structure SignedPolicyBundle where
  policies : List Policy
  version : Nat
  created_at : Nat
  not_after : Nat
  signer_kid : String
  signature : Bytes
deriving DecidableEq

/-- The cryptographic primitives and serializers the embedded code calls,
taken as parameters.  `sha256` is SHA-256; `hkdf` is
`kdf::hkdf_sha256_derive (ikm, salt, info, output_len)`; `kemEncap pk coin`
is `kem::kyber768_encapsulate` with `coin` standing for the CSPRNG input
(`none` models the `from_bytes` failure on a malformed public key);
`kemDecap` is `kem::kyber768_decapsulate`; `aeadEnc` / `aeadDec` are
`aead::aes_256_gcm_encrypt` / `_decrypt` (decryption failure is `none`);
`sign` is `sig::dilithium3_sign` (`none` models a malformed secret key);
`sigVerify` is `sig::dilithium3_verify` collapsed to a `Bool` (the source's
malformed-input error and `Ok(false)` both surface as `InvalidSignature` at
every call site, so the collapse is observation-equivalent); `cborAad`,
`cborEnvelope`, `serializeEntry` and `serializeBundle` are the cbor4ii,
serde_json serializers. -/
structure Crypto where
  sha256 : Bytes → Bytes
  hkdf : Bytes → Option Bytes → Bytes → Nat → Bytes
  kemEncap : Bytes → Nat → Option (Bytes × Bytes)
  kemDecap : Bytes → Bytes → Option Bytes
  aeadEnc : Bytes → Bytes → Bytes → Bytes → Bytes
  aeadDec : Bytes → Bytes → Bytes → Bytes → Option Bytes
  sign : Bytes → Bytes → Option Bytes
  sigVerify : Bytes → Bytes → Bytes → Bool
  cborAad : Aad → Bytes
  cborEnvelope : Envelope → Bytes
  serializeEntry : LogEntry → Bytes
  serializeBundle : SignedPolicyBundle → Bytes

/-- `EnvelopeOps::build_signature_message` (sdk-core/src/envelope/operations.rs):
the CBOR header with the `sig` field cleared, then nonce, ciphertext and the
SHA-256 of the AAD bytes. -/
def EnvelopeOps.build_signature_message (c : Crypto) (envelope : Envelope)
    (aad_bytes : Bytes) : Bytes :=
  c.cborEnvelope { envelope with sig := [] } ++ envelope.nonce ++ envelope.ct
    ++ c.sha256 aad_bytes

/-- `EnvelopeOps::encrypt_and_sign` (sdk-core/src/envelope/operations.rs).
The CSPRNG nonce and the wall-clock timestamp are passed in as `nonce` and
`ts_epoch_ms`; `coin` is the encapsulation randomness. -/
def EnvelopeOps.encrypt_and_sign (c : Crypto)
    (payload tenant_id policy_id : Bytes) (path : String)
    (server_kem_pk client_sig_sk : Bytes) (hybrid : Bool)
    (nonce : Bytes) (ts_epoch_ms coin : Nat) : Except BentengError Envelope :=
  let env0 := Envelope.new tenant_id policy_id path
  let env1 := { env0 with
    algs := { env0.algs with hybrid := hybrid }
    nonce := nonce
    ts_epoch_ms := ts_epoch_ms }
  let aad := Aad.build env1.ver tenant_id policy_id path ts_epoch_ms
    env1.aad_ext.required_algs hybrid env1.aad_ext.device_attest_hash
  let aad_bytes := c.cborAad aad
  match c.kemEncap server_kem_pk coin with
  | none => .error .internalError
  | some (kem_ct, shared_secret) =>
    let env2 := { env1 with kem_ct := kem_ct }
    let dek := c.hkdf shared_secret (some tenant_id) policy_id 32
    let ciphertext := c.aeadEnc dek nonce payload aad_bytes
    let env3 := { env2 with ct := ciphertext }
    let sig_msg := EnvelopeOps.build_signature_message c env3 aad_bytes
    match c.sign client_sig_sk sig_msg with
    | none => .error .internalError
    | some signature => .ok { env3 with sig := signature }

/-- `EnvelopeOps::verify` (sdk-core/src/envelope/operations.rs): rebuild the
AAD from the envelope's own fields, recompute the signature message with the
`sig` field cleared, and check the detached signature. -/
def EnvelopeOps.verify (c : Crypto) (envelope : Envelope)
    (client_sig_pk : Bytes) : Except BentengError Unit :=
  let aad := Aad.build envelope.ver envelope.tenant_id envelope.policy_id
    envelope.path envelope.ts_epoch_ms envelope.aad_ext.required_algs
    envelope.algs.hybrid envelope.aad_ext.device_attest_hash
  let aad_bytes := c.cborAad aad
  let sig_msg := EnvelopeOps.build_signature_message c envelope aad_bytes
  if c.sigVerify client_sig_pk sig_msg envelope.sig then .ok () else .error .invalidSignature

/-- `EnvelopeOps::decrypt` (sdk-core/src/envelope/operations.rs): rebuild the
AAD, decapsulate, re-derive the DEK exactly as `encrypt_and_sign` does, and
AEAD-open.  The `<[u8; 12]>::try_from` on the nonce is the length-12 check. -/
def EnvelopeOps.decrypt (c : Crypto) (envelope : Envelope)
    (server_kem_sk : Bytes) : Except BentengError Bytes :=
  let aad := Aad.build envelope.ver envelope.tenant_id envelope.policy_id
    envelope.path envelope.ts_epoch_ms envelope.aad_ext.required_algs
    envelope.algs.hybrid envelope.aad_ext.device_attest_hash
  let aad_bytes := c.cborAad aad
  match c.kemDecap server_kem_sk envelope.kem_ct with
  | none => .error .internalError
  | some shared_secret =>
    let dek := c.hkdf shared_secret (some envelope.tenant_id) envelope.policy_id 32
    if envelope.nonce.length = 12 then
      match c.aeadDec dek envelope.nonce envelope.ct aad_bytes with
      | some plaintext => .ok plaintext
      | none => .error .aeadFailure
    else .error .internalError

/-- `kdf::derive_hybrid_dek` (sdk-core/src/crypto/kdf.rs): the DEK derivation
with `ikm = "benteng/hybrid/v1" ++ ss_ecc ++ ss_pqc`,
`salt = tenant_id ++ policy_id` and
`info = "benteng/aead/v1" ++ tenant_id ++ policy_id ++ path`. -/
def derive_hybrid_dek (c : Crypto) (ss_ecc ss_pqc tenant_id policy_id : Bytes)
    (path : String) : Bytes :=
  c.hkdf (strBytes "benteng/hybrid/v1" ++ ss_ecc ++ ss_pqc)
    (some (tenant_id ++ policy_id))
    (strBytes "benteng/aead/v1" ++ tenant_id ++ policy_id ++ strBytes path) 32

/-- `DualControlConfig` (sdk-core/src/crypto/kms.rs). -/
structure DualControlConfig where
  hsm_a_endpoint : String
  hsm_b_endpoint : String
  require_quorum : Bool
  quorum_threshold : Nat
  timeout_ms : Nat
  max_cache_entries : Nat
  cache_ttl_secs : Nat
deriving DecidableEq

/-- The `Default` impl for `DualControlConfig`. -/
def DualControlConfig.defaultConfig : DualControlConfig :=
  { hsm_a_endpoint := "mock://hsm-a", hsm_b_endpoint := "mock://hsm-b"
    require_quorum := true, quorum_threshold := 2, timeout_ms := 5000
    max_cache_entries := 100, cache_ttl_secs := 300 }

/-- `CachedKey` (sdk-core/src/crypto/kms.rs): key material with absolute
expiry. -/
structure CachedKey where
  expires_at : Nat
  key_material : Bytes
deriving DecidableEq

/-- HSM-A key identifier.  The source builds the string
`format!("{}-{}", hex::encode(&tenant_id[..4]), hex::encode(&policy_id[..4]))`;
hex encoding and the separator make that string injective in the two 4-byte
prefixes, so the KID is modelled as the pair of prefixes. -/
abbrev Kid := Bytes × Bytes

/-- Mutable state of `DualControlKms`: the derivation cache, the mock HSM-A
key table (public key, secret key) and the quorum-approval map. -/
structure KmsState where
  cache : List (Bytes × CachedKey)
  hsm_a_keys : List (Kid × (Bytes × Bytes))
  quorum_approvals : List (Bytes × List String)
deriving DecidableEq

/-- `DualControlKms::new`: empty cache, key table and approval map. -/
def KmsState.new : KmsState :=
  { cache := [], hsm_a_keys := [], quorum_approvals := [] }

/-- `DualControlKms::add_approval`: push an approver onto the request's
approval list. -/
def KmsState.add_approval (st : KmsState) (request_id : Bytes) (approver : String) :
    KmsState :=
  let current := (alookup request_id st.quorum_approvals).getD []
  { st with quorum_approvals := aupsert request_id (current ++ [approver]) st.quorum_approvals }

/-- `DualControlKms::get_k1` (sdk-core/src/crypto/kms.rs): look up the
HSM-A key for the KID, decapsulate, and apply HKDF with the
`benteng/hsm-a/k1/v1` domain salt. -/
def getK1 (c : Crypto) (st : KmsState) (kem_ciphertext : Bytes) (kid : Kid) :
    Except BentengError Bytes :=
  match alookup kid st.hsm_a_keys with
  | none => .error (.kmsError "KEM key not found in HSM-A")
  | some (_, secret_key) =>
    match c.kemDecap secret_key kem_ciphertext with
    | none => .error .internalError
    | some shared_secret =>
      .ok (c.hkdf shared_secret (some (strBytes "benteng/hsm-a/k1/v1")) [] 32)

/-- `DualControlKms::get_k2` (sdk-core/src/crypto/kms.rs): fail unless the
request has at least `quorum_threshold` approvals (when `require_quorum`),
then derive K2 from `request_id ++ policy_id` with the
`benteng/hsm-b/k2/v1` domain salt. -/
def getK2 (c : Crypto) (cfg : DualControlConfig) (st : KmsState)
    (request_id policy_id : Bytes) : Except BentengError Bytes :=
  if cfg.require_quorum ∧
      ((alookup request_id st.quorum_approvals).getD []).length < cfg.quorum_threshold then
    .error (.kmsError "Insufficient quorum approvals")
  else
    .ok (c.hkdf (request_id ++ policy_id) (some (strBytes "benteng/hsm-b/k2/v1")) [] 32)

/-- The KMS cache key: `kem_ct ++ policy_id ++ tenant_id ++ path.as_bytes()`. -/
def kmsCacheKey (kem_ciphertext policy_id tenant_id : Bytes) (path : String) : Bytes :=
  kem_ciphertext ++ policy_id ++ tenant_id ++ strBytes path

/-- The request identifier for quorum tracking:
`HKDF(cache_key, salt = "benteng/request-id/v1", info = "", 32)`. -/
def kmsRequestId (c : Crypto) (kem_ciphertext policy_id tenant_id : Bytes)
    (path : String) : Bytes :=
  c.hkdf (kmsCacheKey kem_ciphertext policy_id tenant_id path)
    (some (strBytes "benteng/request-id/v1")) [] 32

/-- The cache write at the end of `dual_decrypt`: when the cache is at or
above capacity, first drop every entry with `expires_at ≤ now`, then, if
still at or above capacity, drop the first iterated entry (if any); finally
insert the new entry. -/
def cacheInsertStep (cfg : DualControlConfig) (now : Nat)
    (cache : List (Bytes × CachedKey)) (key : Bytes) (ck : CachedKey) :
    List (Bytes × CachedKey) :=
  let cache1 :=
    if cfg.max_cache_entries ≤ cache.length then
      let retained := cache.filter (fun kv => now < kv.2.expires_at)
      if cfg.max_cache_entries ≤ retained.length then
        match retained with
        | [] => retained
        | _ :: rest => rest
      else retained
    else cache
  aupsert key ck cache1

/-- `DualControlKms::dual_decrypt` (sdk-core/src/crypto/kms.rs).  Returns
`none` where the source panics: the `&tenant_id[..4]` / `&policy_id[..4]`
slices in the KID derivation are out of bounds when either identifier is
shorter than 4 bytes.  Otherwise returns the source's `Result` and the KMS
state after the call. -/
def dualDecrypt (c : Crypto) (cfg : DualControlConfig) (st : KmsState) (now : Nat)
    (kem_ciphertext policy_id tenant_id : Bytes) (path : String) :
    Option (Except BentengError Bytes × KmsState) :=
  let cache_key := kmsCacheKey kem_ciphertext policy_id tenant_id path
  let hit : Option Bytes :=
    match alookup cache_key st.cache with
    | some cached => if now < cached.expires_at then some cached.key_material else none
    | none => none
  match hit with
  | some key_material => some (.ok key_material, st)
  | none =>
    let request_id := kmsRequestId c kem_ciphertext policy_id tenant_id path
    if tenant_id.length < 4 ∨ policy_id.length < 4 then
      none
    else
      let kid : Kid := (tenant_id.take 4, policy_id.take 4)
      match getK1 c st kem_ciphertext kid with
      | .error e => some (.error e, st)
      | .ok k1 =>
        match getK2 c cfg st request_id policy_id with
        | .error e => some (.error e, st)
        | .ok k2 =>
          let dek := c.hkdf (k1 ++ k2) (some (strBytes "benteng/dek/v1"))
            (tenant_id ++ policy_id ++ strBytes path) 32
          let cached : CachedKey :=
            { expires_at := now + cfg.cache_ttl_secs * 1000, key_material := dek }
          some (.ok dek,
            { st with cache := cacheInsertStep cfg now st.cache cache_key cached })

/-- State after a `dual_decrypt` call, treating a panic (`none`) as leaving
the state unchanged. -/
def dualDecryptRun (c : Crypto) (cfg : DualControlConfig) (st : KmsState)
    (req : Nat × Bytes × Bytes × Bytes × String) : KmsState :=
  match dualDecrypt c cfg st req.1 req.2.1 req.2.2.1 req.2.2.2.1 req.2.2.2.2 with
  | some (_, st') => st'
  | none => st

/-- A sequence of `dual_decrypt` calls. -/
def dualDecryptRunAll (c : Crypto) (cfg : DualControlConfig)
    (reqs : List (Nat × Bytes × Bytes × Bytes × String)) (st : KmsState) : KmsState :=
  reqs.foldl (dualDecryptRun c cfg) st

/-- Merkle tree node (transparency/src/lib.rs): a hash with optional
children (leaves have none). -/
inductive MerkleNode where
  | mk : Bytes → Option MerkleNode → Option MerkleNode → MerkleNode

/-- Hash stored in a Merkle node. -/
def MerkleNode.hash : MerkleNode → Bytes
  | .mk h _ _ => h

/-- Signed checkpoint (transparency/src/lib.rs). -/
structure Checkpoint where
  tree_size : Nat
  root_hash : Bytes
  ts : Nat
  ver : Nat
  signature : Bytes
deriving DecidableEq

/-- Leaf hash: `SHA256(0x00 ++ entry_bytes)`. -/
def leafHashB (sha : Bytes → Bytes) (entry_bytes : Bytes) : Bytes :=
  sha (0 :: entry_bytes)

/-- Interior hash: `SHA256(0x01 ++ left ++ right)`. -/
def nodeHashB (sha : Bytes → Bytes) (l r : Bytes) : Bytes :=
  sha (1 :: (l ++ r))

/-- One iteration of the `chunks(2)` loop in `rebuild_tree`: combine adjacent
pairs into interior nodes; a lone trailing node is passed through unchanged
(the `chunk[0].clone()` arm). -/
def buildLevelN (sha : Bytes → Bytes) : List MerkleNode → List MerkleNode
  | a :: b :: rest =>
    .mk (nodeHashB sha a.hash b.hash) (some a) (some b) :: buildLevelN sha rest
  | l => l

/-- Each level at least halves a list of two or more nodes. -/
theorem buildLevelN_length (sha : Bytes → Bytes) :
    ∀ l : List MerkleNode, (buildLevelN sha l).length = (l.length + 1) / 2
  | [] => by simp [buildLevelN]
  | [_] => by simp [buildLevelN]
  | _ :: _ :: rest => by
    simp [buildLevelN, buildLevelN_length sha rest]
    omega

/-- The `while nodes.len() > 1` loop of `rebuild_tree`, ending with
`nodes.into_iter().next()`: no node for an empty list, the single remaining
node otherwise. -/
def collapseN (sha : Bytes → Bytes) : List MerkleNode → Option MerkleNode
  | [] => none
  | [a] => some a
  | a :: b :: rest => collapseN sha (buildLevelN sha (a :: b :: rest))
termination_by l => l.length
decreasing_by
  simp [buildLevelN, buildLevelN_length]
  omega

/-- Transparency log state (transparency/src/lib.rs). -/
structure TransparencyLog where
  entries : List LogEntry
  tree : Option MerkleNode
  checkpoints : List Checkpoint

/-- `TransparencyLog::new`. -/
def TransparencyLog.new : TransparencyLog :=
  { entries := [], tree := none, checkpoints := [] }

/-- Leaf node for one entry: hash `SHA256(0x00 ++ serialized entry)`, no
children. -/
def leafNode (c : Crypto) (e : LogEntry) : MerkleNode :=
  .mk (leafHashB c.sha256 (c.serializeEntry e)) none none

/-- `TransparencyLog::rebuild_tree` (transparency/src/lib.rs): clear the tree
when there are no entries, otherwise rebuild it bottom-up from the leaf
nodes. -/
def TransparencyLog.rebuild_tree (c : Crypto) (log : TransparencyLog) :
    TransparencyLog :=
  if log.entries.isEmpty then { log with tree := none }
  else { log with tree := collapseN c.sha256 (log.entries.map (leafNode c)) }

/-- `TransparencyLog::append`: push the entry and rebuild the tree, returning
the entry's index (the source's `Ok(entry_id)`). -/
def TransparencyLog.append (c : Crypto) (log : TransparencyLog) (e : LogEntry) :
    TransparencyLog × Nat :=
  let entry_id := log.entries.length
  (TransparencyLog.rebuild_tree c { log with entries := log.entries ++ [e] }, entry_id)

/-- `TransparencyLog::get_root_hash`. -/
def TransparencyLog.get_root_hash (log : TransparencyLog) : Option Bytes :=
  log.tree.map MerkleNode.hash

/-- A sequence of appends. -/
def TransparencyLog.appendAll (c : Crypto) (es : List LogEntry)
    (log : TransparencyLog) : TransparencyLog :=
  es.foldl (fun l e => (TransparencyLog.append c l e).1) log

/-- Specification-side hash-level combination step, written from the claim's
words: interior hash of each adjacent pair, an odd trailing hash propagates
unchanged to the next level (no duplication). -/
def rfc6962Level (sha : Bytes → Bytes) : List Bytes → List Bytes
  | a :: b :: rest => nodeHashB sha a b :: rfc6962Level sha rest
  | l => l

/-- Specification-side level step at least halves two or more hashes. -/
theorem rfc6962Level_length (sha : Bytes → Bytes) :
    ∀ l : List Bytes, (rfc6962Level sha l).length = (l.length + 1) / 2
  | [] => by simp [rfc6962Level]
  | [_] => by simp [rfc6962Level]
  | _ :: _ :: rest => by
    simp [rfc6962Level, rfc6962Level_length sha rest]
    omega

/-- Specification-side RFC-6962-style root of a list of leaf hashes, written
from the claim's words: combine levels until one hash remains; no hash for
an empty leaf list. -/
def rfc6962Root (sha : Bytes → Bytes) : List Bytes → Option Bytes
  | [] => none
  | [a] => some a
  | a :: b :: rest => rfc6962Root sha (rfc6962Level sha (a :: b :: rest))
termination_by l => l.length
decreasing_by
  simp [rfc6962Level, rfc6962Level_length]
  omega

/-- `PolicyDistributor` (sdk-core/src/policy_bundle.rs): two-slot bundle
distribution (`current_bundle`, `next_bundle`). -/
structure PolicyDistributor where
  current_bundle : Option SignedPolicyBundle
  next_bundle : Option SignedPolicyBundle
deriving DecidableEq

/-- `PolicyDistributor::new`. -/
def PolicyDistributor.new : PolicyDistributor :=
  { current_bundle := none, next_bundle := none }

/-- `PolicyDistributor::current_version`: the current bundle's version, 0 when
there is none. -/
def PolicyDistributor.current_version (d : PolicyDistributor) : Nat :=
  (d.current_bundle.map (fun b => b.version)).getD 0

/-- `PolicyDistributor::update_bundle` (sdk-core/src/policy_bundle.rs): the
offered bundle is staged exactly when its version is strictly greater than
the current version. -/
def PolicyDistributor.update_bundle (d : PolicyDistributor)
    (bundle : SignedPolicyBundle) : PolicyDistributor :=
  if d.current_version < bundle.version then { d with next_bundle := some bundle } else d

/-- `PolicyDistributor::activate_next`. -/
def PolicyDistributor.activate_next (d : PolicyDistributor) : PolicyDistributor :=
  match d.next_bundle with
  | some next => { current_bundle := some next, next_bundle := none }
  | none => d

/-- `SignedPolicyBundle::verify` (sdk-core/src/policy_bundle.rs): check the
signature over the bundle serialized with the `signature` field cleared. -/
def SignedPolicyBundle.verify (c : Crypto) (b : SignedPolicyBundle)
    (public_key : Bytes) : Bool :=
  c.sigVerify public_key (c.serializeBundle { b with signature := [] }) b.signature

/-- `SignedPolicyBundle::is_valid`: `created_at ≤ now < not_after`. -/
def SignedPolicyBundle.is_valid (b : SignedPolicyBundle) (now : Nat) : Bool :=
  b.created_at ≤ now ∧ now < b.not_after

/-- Gateway state (edge-api/src/main.rs `AppState`), restricted to the parts
the `verify` handler reads and writes after the rate-limit stage: the replay
cache (`SHA256(sig) ↦ first-seen time`), the policy cache and the
transparency log.  The floating-point token-bucket limiter is outside the
model; the theorems about the handler therefore start at the signature-hash
computation, i.e. they describe every request that decoded successfully and
passed the rate limiter. -/
structure GwState where
  replay_cache : List (Bytes × Nat)
  policy_cache : List (String × Policy)
  tlog : TransparencyLog

/-- Outcome of the `verify` handler past the rate-limit stage
(edge-api/src/main.rs, lines 152-265): 409 REJECTED "Replay detected",
400 REJECTED "Envelope too old", or 200 with decision "OK" and the response
fields. -/
inductive GwResp where
  | replayDetected
  | tooOld
  | okResp (claims_alg : String) (claims_age_ms : Nat) (claims_path : String)
      (kid : String) (tlog_hash : String) (checkpoint : String)
deriving DecidableEq

/-- Decision of a gateway response: `true` exactly for decision "OK". -/
def GwResp.isOk : GwResp → Bool
  | .okResp .. => true
  | _ => false

/-- The handler's policy-cache key:
`format!("{}-{}-{}", hex(tenant[..4.min(len)]), hex(policy[..4.min(len)]), path)`. -/
def policyKey (envelope : Envelope) : String :=
  hexEncode (envelope.tenant_id.take 4) ++ "-" ++ hexEncode (envelope.policy_id.take 4)
    ++ "-" ++ envelope.path

/-- The conservative default policy the handler builds on a cache miss. -/
def defaultPolicy (envelope : Envelope) : Policy :=
  { tenant_id := hexEncode envelope.tenant_id
    policy_id := hexEncode envelope.policy_id
    path := envelope.path
    required_algs := envelope.aad_ext.required_algs
    max_age_ms := 30000
    max_body_bytes := 65536
    require_device_attest := false
    hybrid_allowed := true
    replay_ttl_ms := 30000
    version := 1 }

/-- Policy the handler uses for an envelope: the cached policy under
`policyKey`, or the default. -/
def lookupPolicy (st : GwState) (envelope : Envelope) : Policy :=
  (alookup (policyKey envelope) st.policy_cache).getD (defaultPolicy envelope)

/-- The KID string in the verify response and log entry. -/
def verifyKid (envelope : Envelope) : String :=
  "btk/ten-" ++ hexEncode (envelope.tenant_id.take 4) ++ "/server-sig/ML-DSA-65/v1"

/-- The `verify` handler (edge-api/src/main.rs) from the signature-hash
computation onward, for a request that decoded to `envelope` and passed the
rate limiter, executing at wall-clock `now_ms` (milliseconds since the
epoch).  Steps, in source order: hash the signature; evict replay records
older than 5 minutes and reject on a hit, otherwise insert the record; look
up the policy (default on miss); reject when
`now_ms > ts_epoch_ms + max_age_ms`; append a receipt to the transparency
log; answer decision "OK".  (`age_ms` is `now_ms - ts_epoch_ms` as `Nat`
truncated subtraction; the source's u64 subtraction is identical whenever
`ts_epoch_ms ≤ now_ms`.) -/
def verifyCore (c : Crypto) (st : GwState) (now_ms : Nat) (envelope : Envelope) :
    GwResp × GwState :=
  let sig_hash := c.sha256 envelope.sig
  let evicted := st.replay_cache.filter (fun kv => now_ms - kv.2 < 300000)
  match alookup sig_hash evicted with
  | some _ => (.replayDetected, { st with replay_cache := evicted })
  | none =>
    let st1 := { st with replay_cache := aupsert sig_hash now_ms evicted }
    let policy := lookupPolicy st envelope
    if envelope.ts_epoch_ms + policy.max_age_ms < now_ms then
      (.tooOld, st1)
    else
      let hdr_h := c.sha256
        (strBytes "verify" ++ envelope.tenant_id ++ envelope.policy_id ++ sig_hash)
      let entry : LogEntry :=
        { v := 1, ten := envelope.tenant_id, typ := "verify", ts := now_ms
          hdr_h := hdr_h, sig_h := sig_hash, kid := verifyKid envelope
          pol := envelope.policy_id, rc := 0 }
      let tlog' := (TransparencyLog.append c st1.tlog entry).1
      (.okResp envelope.aad_ext.required_algs (now_ms - envelope.ts_epoch_ms)
          envelope.path (verifyKid envelope) (hexEncode hdr_h) "checkpoint-123",
        { st1 with tlog := tlog' })

/-- A concrete symbolic instantiation of the cryptographic parameters, used
to evaluate the embedded code on explicit inputs (witnesses and
counterexamples).  The functions satisfy the structural contracts the
theorems assume (KEM and AEAD round-trips, HKDF output length) without
modelling the real primitives' bit-level behaviour. -/
def cW : Crypto :=
  { sha256 := fun l => 2 :: l
    hkdf := fun ikm salt info n => List.replicate n (ikm.sum + (salt.getD []).sum + info.sum)
    kemEncap := fun pk coin => some (pk ++ [coin], 7 :: (pk ++ [coin]))
    kemDecap := fun _ ct => some (7 :: ct)
    aeadEnc := fun key _ pt _ => key.sum :: pt
    aeadDec := fun key _ ct _ =>
      match ct with
      | [] => none
      | s :: p => if s = key.sum then some p else none
    sign := fun _ msg => some (3 :: msg)
    sigVerify := fun _ _ _ => true
    cborAad := fun a =>
      [a.ver, a.ts_epoch_ms, if a.hybrid then 1 else 0] ++ a.tenant_id ++ a.policy_id
        ++ strBytes a.path ++ strBytes a.required_algs ++ (a.device_attest_hash.getD [])
    cborEnvelope := fun e =>
      [e.ver, e.ts_epoch_ms] ++ e.tenant_id ++ e.policy_id ++ strBytes e.path
        ++ e.nonce ++ e.kem_ct ++ e.sig ++ e.ct
    serializeEntry := fun e =>
      [e.v, e.ts, e.rc] ++ e.ten ++ e.pol ++ strBytes e.typ ++ strBytes e.kid
        ++ e.hdr_h ++ e.sig_h
    serializeBundle := fun b =>
      [b.version, b.created_at, b.not_after] ++ strBytes b.signer_kid ++ b.signature }

/-- The symbolic instantiation with a signature verifier that accepts
nothing: every signature is invalid under it. -/
def cBad : Crypto :=
  { cW with sigVerify := fun _ _ _ => false }

/-- Looking a key up in an association list built by filtering finds nothing
when the original list had nothing under that key. -/
theorem alookup_filter_none {β : Type} {k : Bytes} {l : List (Bytes × β)}
    (p : Bytes × β → Bool) (h : alookup k l = none) :
    alookup k (l.filter p) = none := by
  induction l with
  | nil => simp [alookup]
  | cons hd tl ih =>
    simp only [alookup] at h
    by_cases hk : hd.1 = k
    · simp [hk] at h
    · have h' : alookup k tl = none := by
        simpa [alookup, hk] using h
      by_cases hp : p hd
      · simpa [List.filter, hp, alookup, hk] using ih h'
      · simpa [List.filter, hp] using ih h'

/-- Filtering preserves the binding of a key when its value satisfies the
predicate and the key occurs at most once (first binding is the only one
consulted; we require absence after it via the lookup discipline below). -/
theorem alookup_filter_some {β : Type} {k : Bytes} {v : β} {l : List (Bytes × β)}
    (p : Bytes × β → Bool) (h : alookup k l = some v) (hp : p (k, v) = true) :
    alookup k (l.filter p) = some v := by
  induction l with
  | nil => simp [alookup] at h
  | cons hd tl ih =>
    by_cases hk : hd.1 = k
    · have hv : hd.2 = v := by
        simpa [alookup, hk] using h
      have hd_eq : hd = (k, v) := by
        cases hd
        simp_all
      subst hd_eq
      simp [List.filter, hp, alookup]
    · have h' : alookup k tl = some v := by
        simpa [alookup, hk] using h
      by_cases hq : p hd
      · simpa [List.filter, hq, alookup, hk] using ih h'
      · simpa [List.filter, hq] using ih h'

/-- Inserting into an association list that lacks the key appends the new
binding. -/
theorem aupsert_of_absent {β : Type} {k : Bytes} {l : List (Bytes × β)} (v : β)
    (h : alookup k l = none) :
    aupsert k v l = l ++ [(k, v)] := by
  induction l with
  | nil => simp [aupsert]
  | cons hd tl ih =>
    by_cases hk : hd.1 = k
    · simp [alookup, hk] at h
    · have h' : alookup k tl = none := by
        simpa [alookup, hk] using h
      cases hd
      simp_all [aupsert]

/-- Lookup after insert finds the inserted value. -/
theorem alookup_aupsert_self {β : Type} (k : Bytes) (v : β) (l : List (Bytes × β)) :
    alookup k (aupsert k v l) = some v := by
  induction l with
  | nil => simp [aupsert, alookup]
  | cons hd tl ih =>
    by_cases hk : hd.1 = k
    · simp [aupsert, hk, alookup]
    · simp [aupsert, hk, alookup, ih]

/-- Insert-or-replace grows an association list by at most one binding. -/
theorem length_aupsert_le {β : Type} (k : Bytes) (v : β) (l : List (Bytes × β)) :
    (aupsert k v l).length ≤ l.length + 1 := by
  induction l with
  | nil => simp [aupsert]
  | cons hd tl ih =>
    by_cases hk : hd.1 = k
    · simp [aupsert, hk]
    · simp only [aupsert, hk, if_false, List.length_cons]
      omega

/-- Hash projection of one node-level combination step: combining node pairs
and then reading hashes is the specification-side level step on the hashes. -/
theorem buildLevelN_map_hash (sha : Bytes → Bytes) :
    ∀ ns : List MerkleNode,
      (buildLevelN sha ns).map MerkleNode.hash = rfc6962Level sha (ns.map MerkleNode.hash)
  | [] => by simp [buildLevelN, rfc6962Level]
  | [a] => by simp [buildLevelN, rfc6962Level]
  | a :: b :: rest => by
    simp [buildLevelN, rfc6962Level, buildLevelN_map_hash sha rest, MerkleNode.hash]

/-- Hash projection of the bottom-up tree collapse: the root hash of the
imperative node-level loop is the specification-side root of the leaf
hashes. -/
theorem collapseN_map_hash (sha : Bytes → Bytes) :
    ∀ ns : List MerkleNode,
      Option.map MerkleNode.hash (collapseN sha ns) = rfc6962Root sha (ns.map MerkleNode.hash)
  | [] => by simp [collapseN, rfc6962Root]
  | [a] => by simp [collapseN, rfc6962Root]
  | a :: b :: rest => by
    rw [collapseN,
      collapseN_map_hash sha (buildLevelN sha (a :: b :: rest)),
      buildLevelN_map_hash sha (a :: b :: rest)]
    conv_rhs => rw [List.map_cons, List.map_cons, rfc6962Root]
    simp
termination_by ns => ns.length
decreasing_by
  simp [buildLevelN, buildLevelN_length]
  omega

/-- Appending entries one by one leaves the final tree determined by the
final entry list: the root after a nonempty run of appends is the
specification-side root over the serialized leaves of all entries. -/
theorem appendAll_get_root_hash (c : Crypto) :
    ∀ (es : List LogEntry) (log : TransparencyLog), es ≠ [] →
      (TransparencyLog.appendAll c es log).get_root_hash
        = rfc6962Root c.sha256
            ((log.entries ++ es).map (fun e => leafHashB c.sha256 (c.serializeEntry e))) := by
  intro es
  induction es with
  | nil => intro _ h; exact absurd rfl h
  | cons e es ih =>
    intro log _
    have hstep : TransparencyLog.appendAll c (e :: es) log
        = TransparencyLog.appendAll c es (TransparencyLog.append c log e).1 := by
      simp [TransparencyLog.appendAll]
    have hentries : (TransparencyLog.append c log e).1.entries = log.entries ++ [e] := by
      simp [TransparencyLog.append, TransparencyLog.rebuild_tree]
    by_cases hes : es = []
    · subst hes
      rw [hstep]
      simp only [TransparencyLog.appendAll, List.foldl_nil]
      have htree : (TransparencyLog.append c log e).1.tree
          = collapseN c.sha256 ((log.entries ++ [e]).map (leafNode c)) := by
        simp [TransparencyLog.append, TransparencyLog.rebuild_tree]
      simp only [TransparencyLog.get_root_hash, htree]
      rw [collapseN_map_hash]
      simp [leafNode, List.map_map, Function.comp_def, MerkleNode.hash]
    · rw [hstep, ih _ hes, hentries]
      simp

/-- C5.  After any sequence of appends to a fresh transparency log,
`get_root_hash` is the RFC-6962-style root (leaf hash
`SHA256(0x00 ++ entry_bytes)`, interior hash `SHA256(0x01 ++ left ++ right)`,
odd trailing node propagating unchanged) of the serialized entries in append
order, and it is `none` for the empty sequence. -/
theorem C5_root_hash_is_rfc6962 (c : Crypto) (entries : List LogEntry) :
    (TransparencyLog.appendAll c entries TransparencyLog.new).get_root_hash
      = rfc6962Root c.sha256
          (entries.map (fun e => leafHashB c.sha256 (c.serializeEntry e)))
    ∧ (TransparencyLog.appendAll c [] TransparencyLog.new).get_root_hash = none := by
  constructor
  · by_cases h : entries = []
    · subst h
      simp [TransparencyLog.appendAll, TransparencyLog.new, TransparencyLog.get_root_hash,
        rfc6962Root]
    · have := appendAll_get_root_hash c entries TransparencyLog.new h
      simpa [TransparencyLog.new] using this
  · simp [TransparencyLog.appendAll, TransparencyLog.new, TransparencyLog.get_root_hash]

/-- Concrete bundle whose signature does not verify (under `cBad` nothing
verifies) and whose `not_after` has already passed at time 100. -/
def c6Bundle : SignedPolicyBundle :=
  { policies := [], version := 1, created_at := 0, not_after := 50
    signer_kid := "signer", signature := [0] }

/-- C6, counterexample.  A bundle offered at time 100 whose signature fails
and whose `not_after ≤ now` is nevertheless accepted into the staged slot by
`update_bundle` (which consults only the version), changing the staged slot
from empty to the bundle — the claim's conditions (a) and (c) are not
enforced and a failing bundle does not leave the slots unchanged. -/
theorem C6_counterexample :
    SignedPolicyBundle.verify cBad c6Bundle [3] = false
    ∧ ¬ (100 < c6Bundle.not_after)
    ∧ PolicyDistributor.new.next_bundle = none
    ∧ (PolicyDistributor.new.update_bundle c6Bundle).next_bundle = some c6Bundle := by
  refine ⟨rfl, by decide, rfl, ?_⟩
  decide

/-- C6, amended.  A bundle is accepted into the staged slot if and only if
its version is strictly greater than the current bundle's version (0 when no
bundle is current); the signature and the `not_after` bound are not
consulted; the current slot is never touched, and a bundle failing the
version test leaves the distributor entirely unchanged. -/
theorem C6_staging_version_only (d : PolicyDistributor) (b : SignedPolicyBundle) :
    (d.update_bundle b).current_bundle = d.current_bundle
    ∧ (d.current_version < b.version → (d.update_bundle b).next_bundle = some b)
    ∧ (b.version ≤ d.current_version → d.update_bundle b = d) := by
  refine ⟨?_, ?_, ?_⟩
  · unfold PolicyDistributor.update_bundle
    split <;> rfl
  · intro h
    simp [PolicyDistributor.update_bundle, h]
  · intro h
    have : ¬ d.current_version < b.version := by omega
    simp [PolicyDistributor.update_bundle, this]

/-- Witness for C6's amended theorem at a concrete input: the fresh
distributor has version 0, so a version-1 bundle is staged. -/
theorem C6_staging_version_only_witness :
    PolicyDistributor.new.current_version < c6Bundle.version
    ∧ (PolicyDistributor.new.update_bundle c6Bundle).next_bundle = some c6Bundle :=
  ⟨by decide, (C6_staging_version_only PolicyDistributor.new c6Bundle).2.1 (by decide)⟩

/-- The cache write keeps the cache within capacity, provided the capacity
is at least 1 and the cache was within capacity before the write. -/
theorem cacheInsertStep_length_le (cfg : DualControlConfig) (now : Nat)
    (cache : List (Bytes × CachedKey)) (key : Bytes) (ck : CachedKey)
    (h1 : 1 ≤ cfg.max_cache_entries) (h2 : cache.length ≤ cfg.max_cache_entries) :
    (cacheInsertStep cfg now cache key ck).length ≤ cfg.max_cache_entries := by
  unfold cacheInsertStep
  dsimp only
  by_cases hfull : cfg.max_cache_entries ≤ cache.length
  · rw [if_pos hfull]
    have hret : (cache.filter (fun kv => now < kv.2.expires_at)).length ≤ cache.length :=
      List.length_filter_le _ _
    by_cases hstill :
        cfg.max_cache_entries ≤ (cache.filter (fun kv => now < kv.2.expires_at)).length
    · rw [if_pos hstill]
      cases hcase : cache.filter (fun kv => now < kv.2.expires_at) with
      | nil =>
        rw [hcase] at hstill
        simp at hstill
        omega
      | cons hd tl =>
        rw [hcase] at hstill hret
        simp only [List.length_cons] at hstill hret
        dsimp only
        have := length_aupsert_le key ck tl
        omega
    · rw [if_neg hstill]
      have := length_aupsert_le key ck (cache.filter (fun kv => now < kv.2.expires_at))
      omega
  · rw [if_neg hfull]
    have := length_aupsert_le key ck cache
    omega

/-- A `dual_decrypt` call either leaves the cache untouched (cache hit,
panic-free error paths) or rewrites it through the capacity-bounded cache
write. -/
theorem dualDecrypt_state_cases (c : Crypto) (cfg : DualControlConfig)
    (st : KmsState) (now : Nat) (kem_ciphertext policy_id tenant_id : Bytes)
    (path : String) (r : Except BentengError Bytes) (st' : KmsState)
    (h : dualDecrypt c cfg st now kem_ciphertext policy_id tenant_id path = some (r, st')) :
    st'.cache = st.cache
    ∨ ∃ key ck, st'.cache = cacheInsertStep cfg now st.cache key ck := by
  unfold dualDecrypt at h
  dsimp only at h
  split at h
  · cases h
    exact Or.inl rfl
  · split at h
    · cases h
    · split at h
      · cases h
        exact Or.inl rfl
      · split at h
        · cases h
          exact Or.inl rfl
        · cases h
          exact Or.inr ⟨_, _, rfl⟩

/-- C8, amended.  Starting from any cache within capacity, any sequence of
`dual_decrypt` calls keeps the derivation cache at or below
`max_cache_entries`, provided `max_cache_entries ≥ 1`: on insert at or above
capacity every expired entry is dropped first, and if the cache is still at
or above capacity one further (nonempty-case) entry is dropped before the
insert. -/
theorem C8_cache_bound (c : Crypto) (cfg : DualControlConfig) (st0 : KmsState)
    (reqs : List (Nat × Bytes × Bytes × Bytes × String))
    (h1 : 1 ≤ cfg.max_cache_entries)
    (h0 : st0.cache.length ≤ cfg.max_cache_entries) :
    (dualDecryptRunAll c cfg reqs st0).cache.length ≤ cfg.max_cache_entries := by
  induction reqs generalizing st0 with
  | nil => simpa [dualDecryptRunAll] using h0
  | cons req reqs ih =>
    simp only [dualDecryptRunAll, List.foldl_cons]
    apply ih
    unfold dualDecryptRun
    cases hdd : dualDecrypt c cfg st0 req.1 req.2.1 req.2.2.1 req.2.2.2.1 req.2.2.2.2 with
    | none => exact h0
    | some rs =>
      obtain ⟨r, st'⟩ := rs
      rcases dualDecrypt_state_cases c cfg st0 req.1 req.2.1 req.2.2.1 req.2.2.2.1
          req.2.2.2.2 r st' hdd with hsame | ⟨key, ck, hins⟩
      · simpa [hsame] using h0
      · rw [hins]
        exact cacheInsertStep_length_le cfg req.1 st0.cache key ck h1 h0

/-- Witness for C8's amended theorem at a concrete input: default
configuration (capacity 100), fresh state, one call. -/
theorem C8_cache_bound_witness :
    1 ≤ DualControlConfig.defaultConfig.max_cache_entries
    ∧ KmsState.new.cache.length ≤ DualControlConfig.defaultConfig.max_cache_entries
    ∧ (dualDecryptRunAll cW DualControlConfig.defaultConfig
        [(5, [1], [2, 2, 2, 2], [1, 1, 1, 1], "/p")] KmsState.new).cache.length
      ≤ DualControlConfig.defaultConfig.max_cache_entries :=
  ⟨by decide, by decide,
    C8_cache_bound cW DualControlConfig.defaultConfig KmsState.new
      [(5, [1], [2, 2, 2, 2], [1, 1, 1, 1], "/p")] (by decide) (by decide)⟩

/-- Configuration with `max_cache_entries = 0`, a value the `usize` field
admits. -/
def c8Cfg : DualControlConfig :=
  { hsm_a_endpoint := "mock://hsm-a", hsm_b_endpoint := "mock://hsm-b"
    require_quorum := false, quorum_threshold := 2, timeout_ms := 5000
    max_cache_entries := 0, cache_ttl_secs := 300 }

/-- KMS state holding the HSM-A key for the KID derived from the 4-byte
test identifiers, with an empty cache. -/
def c8St : KmsState :=
  { cache := []
    hsm_a_keys := [(([1, 1, 1, 1], [2, 2, 2, 2]), ([5], [6]))]
    quorum_approvals := [] }

/-- C8, counterexample.  With `max_cache_entries = 0` a successful
`dual_decrypt` leaves one entry in the cache — more than
`max_cache_entries` — because the at-capacity eviction drops nothing from an
empty cache and the insert then runs unconditionally; the claimed bound and
the claimed "exactly one further entry is removed" both fail at capacity 0. -/
theorem C8_counterexample :
    (dualDecrypt cW c8Cfg c8St 1000 [3] [2, 2, 2, 2] [1, 1, 1, 1] "/p").map
        (fun r => r.2.cache.length) = some 1
    ∧ c8Cfg.max_cache_entries < 1 := by
  constructor
  · decide
  · decide

/-- On a cache miss (no fresh entry under the cache key), the hit
computation at the top of `dual_decrypt` yields nothing. -/
theorem kms_hit_none (st : KmsState) (now : Nat)
    (kem_ciphertext policy_id tenant_id : Bytes) (path : String)
    (hMiss : ∀ ck, alookup (kmsCacheKey kem_ciphertext policy_id tenant_id path) st.cache
      = some ck → ck.expires_at ≤ now) :
    (match alookup (kmsCacheKey kem_ciphertext policy_id tenant_id path) st.cache with
      | some cached => if now < cached.expires_at then some cached.key_material else none
      | none => none) = (none : Option Bytes) := by
  cases halo : alookup (kmsCacheKey kem_ciphertext policy_id tenant_id path) st.cache with
  | none => rfl
  | some cached =>
    have h := hMiss cached halo
    simp [Nat.not_lt.mpr h]

/-- C4.  With `require_quorum = true` and threshold `t`, a `dual_decrypt`
call that misses the cache (and whose identifiers are long enough to avoid
the C9 panic, with the HSM-A key present and decapsulation succeeding) fails
with `KmsError("Insufficient quorum approvals")` whenever fewer than `t`
approvals are recorded for the derived request id, leaving the state
unchanged, and returns a 32-byte DEK once at least `t` approvals are
recorded. -/
theorem C4_quorum_threshold (c : Crypto) (cfg : DualControlConfig) (st : KmsState)
    (now : Nat) (kem_ct policy_id tenant_id : Bytes) (path : String)
    (pk sk ss : Bytes)
    (hq : cfg.require_quorum = true)
    (hMiss : ∀ ck, alookup (kmsCacheKey kem_ct policy_id tenant_id path) st.cache = some ck →
      ck.expires_at ≤ now)
    (ht : 4 ≤ tenant_id.length) (hp : 4 ≤ policy_id.length)
    (hKey : alookup (tenant_id.take 4, policy_id.take 4) st.hsm_a_keys = some (pk, sk))
    (hDecap : c.kemDecap sk kem_ct = some ss)
    (hLen : ∀ ikm salt info, (c.hkdf ikm salt info 32).length = 32) :
    (((alookup (kmsRequestId c kem_ct policy_id tenant_id path)
          st.quorum_approvals).getD []).length < cfg.quorum_threshold →
      dualDecrypt c cfg st now kem_ct policy_id tenant_id path
        = some (.error (.kmsError "Insufficient quorum approvals"), st))
    ∧ (cfg.quorum_threshold ≤
        ((alookup (kmsRequestId c kem_ct policy_id tenant_id path)
          st.quorum_approvals).getD []).length →
      ∃ dek st', dualDecrypt c cfg st now kem_ct policy_id tenant_id path
        = some (.ok dek, st') ∧ dek.length = 32) := by
  have hhit := kms_hit_none st now kem_ct policy_id tenant_id path hMiss
  have hshort : ¬ (tenant_id.length < 4 ∨ policy_id.length < 4) := by omega
  have hk1 : getK1 c st kem_ct (tenant_id.take 4, policy_id.take 4)
      = .ok (c.hkdf ss (some (strBytes "benteng/hsm-a/k1/v1")) [] 32) := by
    unfold getK1
    rw [hKey]
    dsimp only
    rw [hDecap]
  constructor
  · intro hlt
    have hk2 : getK2 c cfg st (kmsRequestId c kem_ct policy_id tenant_id path) policy_id
        = .error (.kmsError "Insufficient quorum approvals") := by
      unfold getK2
      rw [if_pos ⟨hq, hlt⟩]
    unfold dualDecrypt
    dsimp only
    rw [hhit, if_neg hshort, hk1]
    dsimp only
    rw [hk2]
  · intro hge
    have hk2 : getK2 c cfg st (kmsRequestId c kem_ct policy_id tenant_id path) policy_id
        = .ok (c.hkdf (kmsRequestId c kem_ct policy_id tenant_id path ++ policy_id)
            (some (strBytes "benteng/hsm-b/k2/v1")) [] 32) := by
      unfold getK2
      rw [if_neg]
      intro hcon
      exact absurd hcon.2 (by omega)
    have hdd : dualDecrypt c cfg st now kem_ct policy_id tenant_id path
        = some (.ok (c.hkdf
            (c.hkdf ss (some (strBytes "benteng/hsm-a/k1/v1")) [] 32 ++
              c.hkdf (kmsRequestId c kem_ct policy_id tenant_id path ++ policy_id)
                (some (strBytes "benteng/hsm-b/k2/v1")) [] 32)
            (some (strBytes "benteng/dek/v1")) (tenant_id ++ policy_id ++ strBytes path) 32),
          { st with cache := (cacheInsertStep cfg now st.cache
              (kmsCacheKey kem_ct policy_id tenant_id path)
              { expires_at := now + cfg.cache_ttl_secs * 1000
                key_material := c.hkdf
                  (c.hkdf ss (some (strBytes "benteng/hsm-a/k1/v1")) [] 32 ++
                    c.hkdf (kmsRequestId c kem_ct policy_id tenant_id path ++ policy_id)
                      (some (strBytes "benteng/hsm-b/k2/v1")) [] 32)
                  (some (strBytes "benteng/dek/v1"))
                  (tenant_id ++ policy_id ++ strBytes path) 32 }) }) := by
      unfold dualDecrypt
      dsimp only
      rw [hhit, if_neg hshort, hk1]
      dsimp only
      rw [hk2]
    exact ⟨_, _, hdd, hLen _ _ _⟩

/-- C9.  A `dual_decrypt` call that misses the cache and whose `tenant_id`
or `policy_id` is shorter than 4 bytes panics (the `&tenant_id[..4]` /
`&policy_id[..4]` slices in the KID derivation are out of bounds) instead of
returning a `KmsError`. -/
theorem C9_short_ids_panic (c : Crypto) (cfg : DualControlConfig) (st : KmsState)
    (now : Nat) (kem_ct policy_id tenant_id : Bytes) (path : String)
    (hMiss : ∀ ck, alookup (kmsCacheKey kem_ct policy_id tenant_id path) st.cache = some ck →
      ck.expires_at ≤ now)
    (hShort : tenant_id.length < 4 ∨ policy_id.length < 4) :
    dualDecrypt c cfg st now kem_ct policy_id tenant_id path = none := by
  have hhit := kms_hit_none st now kem_ct policy_id tenant_id path hMiss
  unfold dualDecrypt
  dsimp only
  rw [hhit, if_pos hShort]

/-- Witness inputs for the C4 theorem: 4-byte identifiers, the matching
HSM-A key, and two recorded approvals for the derived request id. -/
def c4Tid : Bytes := [1, 1, 1, 1]

/-- Witness policy id for C4. -/
def c4Pid : Bytes := [2, 2, 2, 2]

/-- The request id `dual_decrypt` derives for the witness inputs. -/
def c4Rid : Bytes := kmsRequestId cW [3] c4Pid c4Tid "/p"

/-- Witness KMS state for C4: empty cache, the HSM-A key for the derived
KID, two approvals for the derived request id. -/
def c4St : KmsState :=
  { cache := []
    hsm_a_keys := [((c4Tid.take 4, c4Pid.take 4), ([5], [6]))]
    quorum_approvals := [(c4Rid, ["a", "b"])] }

/-- Witness for C4 at a concrete input: with the default configuration
(quorum required, threshold 2) and two recorded approvals, `dual_decrypt`
returns a 32-byte DEK. -/
theorem C4_quorum_threshold_witness :
    DualControlConfig.defaultConfig.quorum_threshold ≤
      ((alookup (kmsRequestId cW [3] c4Pid c4Tid "/p") c4St.quorum_approvals).getD []).length
    ∧ ∃ dek st', dualDecrypt cW DualControlConfig.defaultConfig c4St 1000 [3] c4Pid c4Tid "/p"
        = some (.ok dek, st') ∧ dek.length = 32 :=
  ⟨by decide,
    (C4_quorum_threshold cW DualControlConfig.defaultConfig c4St 1000 [3] c4Pid c4Tid "/p"
      [5] [6] (7 :: ([3] : Bytes)) rfl
      (fun ck h => by simp [c4St, alookup] at h)
      (by decide) (by decide) (by decide) rfl
      (fun ikm salt info => by simp [cW])).2 (by decide)⟩

/-- Witness for C9 at a concrete input: a 1-byte tenant id panics on a fresh
KMS. -/
theorem C9_short_ids_panic_witness :
    (([1] : Bytes).length < 4 ∨ ([2, 2, 2, 2] : Bytes).length < 4)
    ∧ dualDecrypt cW DualControlConfig.defaultConfig KmsState.new 5 [] [2, 2, 2, 2] [1] "/x"
      = none :=
  ⟨Or.inl (by decide),
    C9_short_ids_panic cW DualControlConfig.defaultConfig KmsState.new 5 [] [2, 2, 2, 2] [1] "/x"
      (fun ck h => by simp [KmsState.new, alookup] at h)
      (Or.inl (by decide))⟩

/-- When the signature hash is not in the replay cache, a `verify` request
(whatever its final outcome) leaves the replay cache equal to the evicted
cache plus a fresh record for the hash at the current time. -/
theorem verifyCore_replay_state (c : Crypto) (st : GwState) (now : Nat) (e : Envelope)
    (hAbsent : alookup (c.sha256 e.sig) st.replay_cache = none) :
    (verifyCore c st now e).2.replay_cache
      = aupsert (c.sha256 e.sig) now
          (st.replay_cache.filter (fun kv => now - kv.2 < 300000)) := by
  have h1 : alookup (c.sha256 e.sig)
      (st.replay_cache.filter (fun kv => now - kv.2 < 300000)) = none :=
    alookup_filter_none _ hAbsent
  unfold verifyCore
  dsimp only
  rw [h1]
  dsimp only
  split <;> rfl

/-- When the signature hash survives eviction in the replay cache, the
request is rejected as a replay. -/
theorem verifyCore_replay_hit (c : Crypto) (st : GwState) (now : Nat) (e : Envelope)
    (h : ∃ t, alookup (c.sha256 e.sig)
      (st.replay_cache.filter (fun kv => now - kv.2 < 300000)) = some t) :
    (verifyCore c st now e).1 = .replayDetected := by
  obtain ⟨t, ht⟩ := h
  unfold verifyCore
  dsimp only
  rw [ht]

/-- When the signature hash is absent after eviction, the request is not
rejected as a replay. -/
theorem verifyCore_not_replay (c : Crypto) (st : GwState) (now : Nat) (e : Envelope)
    (h1 : alookup (c.sha256 e.sig)
      (st.replay_cache.filter (fun kv => now - kv.2 < 300000)) = none) :
    (verifyCore c st now e).1 ≠ .replayDetected := by
  unfold verifyCore
  dsimp only
  rw [h1]
  dsimp only
  split <;> simp

/-- C7.  For an envelope whose signature hash is not yet in the replay
cache, submitting it to `verify` twice has the second call rejected as a
replay exactly when it arrives within the 5-minute replay TTL of the first:
within 300 000 ms the record inserted by the first call is still present and
the second call answers "Replay detected"; at or beyond 300 000 ms the
eviction pass removes the record first and the second call is not rejected
as a replay. -/
theorem C7_replay_window (c : Crypto) (st : GwState) (e : Envelope) (now1 now2 : Nat)
    (hAbsent : alookup (c.sha256 e.sig) st.replay_cache = none) :
    (now2 - now1 < 300000 →
      (verifyCore c (verifyCore c st now1 e).2 now2 e).1 = .replayDetected)
    ∧ (300000 ≤ now2 - now1 →
      (verifyCore c (verifyCore c st now1 e).2 now2 e).1 ≠ .replayDetected) := by
  have hstate := verifyCore_replay_state c st now1 e hAbsent
  have h1 : alookup (c.sha256 e.sig)
      (st.replay_cache.filter (fun kv => now1 - kv.2 < 300000)) = none :=
    alookup_filter_none _ hAbsent
  constructor
  · intro hlt
    apply verifyCore_replay_hit
    refine ⟨now1, ?_⟩
    rw [hstate]
    exact alookup_filter_some _ (alookup_aupsert_self _ _ _) (by simpa using hlt)
  · intro hge
    apply verifyCore_not_replay
    rw [hstate, aupsert_of_absent _ h1, List.filter_append]
    have hnot : ¬ (now2 - now1 < 300000) := by omega
    have hdrop : List.filter (fun kv => now2 - kv.2 < 300000)
        [(c.sha256 e.sig, now1)] = [] := by
      simp [hnot]
    rw [hdrop, List.append_nil]
    exact alookup_filter_none _ (alookup_filter_none _ hAbsent)

/-- Fresh gateway state: empty replay cache, empty policy cache, fresh log. -/
def gwSt0 : GwState :=
  { replay_cache := [], policy_cache := [], tlog := TransparencyLog.new }

/-- Concrete well-formed envelope used to evaluate the gateway handler. -/
def gwEnv : Envelope :=
  { ver := 1
    algs := { kem := "ML-KEM-768", sig := "ML-DSA-65", aead := "AES-256-GCM", hybrid := false }
    tenant_id := [1, 2]
    policy_id := [3, 4]
    path := "/payments/transfer"
    ts_epoch_ms := 0
    nonce := List.replicate 12 0
    aad_ext := { device_attest_hash := none, required_algs := "kyber+dilithium" }
    kem_pub_ephem := none
    kem_ct := [9]
    sig := [42]
    ct := [13] }

/-- Witness for C7 at a concrete input: a second submission 500 ms after the
first is rejected as a replay. -/
theorem C7_replay_window_witness :
    alookup (cW.sha256 gwEnv.sig) gwSt0.replay_cache = none
    ∧ (verifyCore cW (verifyCore cW gwSt0 1000 gwEnv).2 1500 gwEnv).1 = .replayDetected :=
  ⟨rfl, (C7_replay_window cW gwSt0 gwEnv 1000 1500 rfl).1 (by decide)⟩

/-- C10.  The replay record is inserted before the freshness check: a
request rejected with "Envelope too old" still records its signature hash,
so resubmitting the identical envelope within the 5-minute TTL is rejected
as a replay rather than again as too old. -/
theorem C10_stale_request_mutates_replay (c : Crypto) (st : GwState) (e : Envelope)
    (now1 now2 : Nat)
    (hAbsent : alookup (c.sha256 e.sig) st.replay_cache = none)
    (hStale : e.ts_epoch_ms + (lookupPolicy st e).max_age_ms < now1)
    (hTTL : now2 - now1 < 300000) :
    (verifyCore c st now1 e).1 = .tooOld
    ∧ alookup (c.sha256 e.sig) (verifyCore c st now1 e).2.replay_cache = some now1
    ∧ (verifyCore c (verifyCore c st now1 e).2 now2 e).1 = .replayDetected := by
  have h1 : alookup (c.sha256 e.sig)
      (st.replay_cache.filter (fun kv => now1 - kv.2 < 300000)) = none :=
    alookup_filter_none _ hAbsent
  have hstate := verifyCore_replay_state c st now1 e hAbsent
  refine ⟨?_, ?_, ?_⟩
  · unfold verifyCore
    dsimp only
    rw [h1]
    dsimp only
    rw [if_pos hStale]
  · rw [hstate]
    exact alookup_aupsert_self _ _ _
  · apply verifyCore_replay_hit
    refine ⟨now1, ?_⟩
    rw [hstate]
    exact alookup_filter_some _ (alookup_aupsert_self _ _ _) (by simpa using hTTL)

/-- Witness for C10 at a concrete input: the envelope (timestamp 0, default
policy `max_age_ms = 30000`) submitted at 40 000 ms is rejected as too old
yet its hash is recorded, and resubmission at 40 100 ms is rejected as a
replay. -/
theorem C10_stale_request_mutates_replay_witness :
    alookup (cW.sha256 gwEnv.sig) gwSt0.replay_cache = none
    ∧ gwEnv.ts_epoch_ms + (lookupPolicy gwSt0 gwEnv).max_age_ms < 40000
    ∧ (40100 : Nat) - 40000 < 300000
    ∧ ((verifyCore cW gwSt0 40000 gwEnv).1 = .tooOld
      ∧ alookup (cW.sha256 gwEnv.sig) (verifyCore cW gwSt0 40000 gwEnv).2.replay_cache
          = some 40000
      ∧ (verifyCore cW (verifyCore cW gwSt0 40000 gwEnv).2 40100 gwEnv).1 = .replayDetected) :=
  ⟨rfl, by decide, by decide,
    C10_stale_request_mutates_replay cW gwSt0 gwEnv 40000 40100 rfl (by decide) (by decide)⟩

/-- C1, code-bug evidence.  The sdk-core operation `EnvelopeOps::verify`
rejects the concrete envelope as `InvalidSignature` (its signature does not
verify under the client key), yet the gateway verify handler — which never
calls any signature verification — answers decision "OK" for the same
envelope on a fresh gateway state. -/
theorem C1_gateway_skips_signature_check :
    EnvelopeOps.verify cBad gwEnv [77] = .error .invalidSignature
    ∧ (verifyCore cBad gwSt0 1000 gwEnv).1.isOk = true := by
  constructor
  · rfl
  · decide

/-- C2.  Round trip: for every payload, tenant, policy and path, with a
working KEM keypair (decapsulating the produced ciphertext returns the
encapsulated secret), a working signing key and the AEAD round-trip
contract, decrypting the envelope produced by `encrypt_and_sign` with the
matching KEM secret key returns the original payload. -/
theorem C2_seal_open_roundtrip (c : Crypto)
    (payload tenant_id policy_id : Bytes) (path : String)
    (server_kem_pk server_kem_sk client_sig_sk : Bytes) (hybrid : Bool)
    (nonce : Bytes) (ts coin : Nat) (kem_ct ss : Bytes) (sigOf : Bytes → Bytes)
    (hEnc : c.kemEncap server_kem_pk coin = some (kem_ct, ss))
    (hDecap : c.kemDecap server_kem_sk kem_ct = some ss)
    (hSign : ∀ m, c.sign client_sig_sk m = some (sigOf m))
    (hAead : ∀ key n pt aad, c.aeadDec key n (c.aeadEnc key n pt aad) aad = some pt)
    (hNonce : nonce.length = 12) :
    ∃ e, EnvelopeOps.encrypt_and_sign c payload tenant_id policy_id path
        server_kem_pk client_sig_sk hybrid nonce ts coin = .ok e
      ∧ EnvelopeOps.decrypt c e server_kem_sk = .ok payload := by
  unfold EnvelopeOps.encrypt_and_sign
  dsimp only [Envelope.new, AlgorithmSet.defaultSet]
  rw [hEnc]
  dsimp only
  rw [hSign]
  refine ⟨_, rfl, ?_⟩
  unfold EnvelopeOps.decrypt
  dsimp only
  rw [hDecap]
  dsimp only
  rw [if_pos hNonce, hAead]

/-- C3, amended.  For every invocation of `encrypt_and_sign` that returns an
envelope, the payload is AEAD-encrypted under the DEK
`HKDF-SHA256(ikm = ss_pqc, salt = tenant_id, info = policy_id)` — not under
the spec's hybrid derivation (`derive_hybrid_dek` implements that derivation
but `encrypt_and_sign` never calls it). -/
theorem C3_seal_dek_derivation (c : Crypto)
    (payload tenant_id policy_id : Bytes) (path : String)
    (server_kem_pk client_sig_sk : Bytes) (hybrid : Bool)
    (nonce : Bytes) (ts coin : Nat) (kem_ct ss : Bytes)
    (hEnc : c.kemEncap server_kem_pk coin = some (kem_ct, ss)) :
    ∀ e, EnvelopeOps.encrypt_and_sign c payload tenant_id policy_id path
        server_kem_pk client_sig_sk hybrid nonce ts coin = .ok e →
      e.ct = c.aeadEnc (c.hkdf ss (some tenant_id) policy_id 32) nonce payload
        (c.cborAad (Aad.build 1 tenant_id policy_id path ts "kyber+dilithium" hybrid none)) := by
  intro e he
  unfold EnvelopeOps.encrypt_and_sign at he
  dsimp only [Envelope.new, AlgorithmSet.defaultSet] at he
  rw [hEnc] at he
  dsimp only at he
  split at he
  · cases he
  · cases he
    rfl

/-- Specification-side DEK derivation, written from the spec's words (§4.3
step 4, claim C3): `ikm = "benteng/hybrid/v1" ++ ss_ecc ++ ss_pqc` in hybrid
mode or just `ss_pqc` otherwise, `salt = tenant_id ++ policy_id`,
`info = "benteng/aead/v1" ++ tenant_id ++ policy_id ++ path`; to be compared
against what the source's `encrypt_and_sign` actually derives. -/
def specSealDek (c : Crypto) (ss_ecc ss_pqc tenant_id policy_id : Bytes)
    (path : String) (hybrid : Bool) : Bytes :=
  c.hkdf (if hybrid then strBytes "benteng/hybrid/v1" ++ ss_ecc ++ ss_pqc else ss_pqc)
    (some (tenant_id ++ policy_id))
    (strBytes "benteng/aead/v1" ++ tenant_id ++ policy_id ++ strBytes path) 32

/-- C3, counterexample.  At a concrete non-hybrid invocation, the ciphertext
produced by `encrypt_and_sign` is not the AEAD encryption under the DEK the
claim describes (spec salt `tenant ++ policy` and spec info
`"benteng/aead/v1" ++ tenant ++ policy ++ path`): the source derives the DEK
with `salt = tenant_id` and `info = policy_id` instead. -/
theorem C3_counterexample :
    (EnvelopeOps.encrypt_and_sign cW [10, 11] [1] [2] "/p" [5] [6] false
        (List.replicate 12 0) 1000 3).toOption.map
      (fun e => decide (e.ct
        = cW.aeadEnc (specSealDek cW [] (7 :: [5, 3]) [1] [2] "/p" false)
            (List.replicate 12 0) [10, 11]
            (cW.cborAad (Aad.build 1 [1] [2] "/p" 1000 "kyber+dilithium" false none))))
      = some false := by
  decide

/-- Witness for C3's amended theorem at a concrete input. -/
theorem C3_seal_dek_derivation_witness :
    cW.kemEncap [5] 3 = some ([5, 3], 7 :: ([5, 3] : Bytes))
    ∧ ∃ e, EnvelopeOps.encrypt_and_sign cW [10, 11] [1] [2] "/p" [5] [6] false
        (List.replicate 12 0) 1000 3 = .ok e
      ∧ e.ct = cW.aeadEnc (cW.hkdf (7 :: ([5, 3] : Bytes)) (some [1]) [2] 32)
          (List.replicate 12 0) [10, 11]
          (cW.cborAad (Aad.build 1 [1] [2] "/p" 1000 "kyber+dilithium" false none)) :=
  ⟨rfl,
    ⟨_, rfl,
      C3_seal_dek_derivation cW [10, 11] [1] [2] "/p" [5] [6] false
        (List.replicate 12 0) 1000 3 [5, 3] (7 :: ([5, 3] : Bytes)) rfl _ rfl⟩⟩

/-- Witness for C2 at a concrete input. -/
theorem C2_seal_open_roundtrip_witness :
    cW.kemEncap [5] 3 = some ([5, 3], 7 :: ([5, 3] : Bytes))
    ∧ cW.kemDecap [6] [5, 3] = some (7 :: ([5, 3] : Bytes))
    ∧ (List.replicate 12 0).length = 12
    ∧ ∃ e, EnvelopeOps.encrypt_and_sign cW [10, 11] [1] [2] "/p" [5] [6] false
        (List.replicate 12 0) 1000 3 = .ok e
      ∧ EnvelopeOps.decrypt cW e [6] = .ok [10, 11] :=
  ⟨rfl, rfl, by decide,
    C2_seal_open_roundtrip cW [10, 11] [1] [2] "/p" [5] [6] [6] false
      (List.replicate 12 0) 1000 3 [5, 3] (7 :: ([5, 3] : Bytes))
      (fun m => 3 :: m) rfl rfl (fun m => rfl)
      (fun key n pt aad => by simp [cW]) (by decide)⟩

end Benteng










